import Mathlib

/-!
Verification development for `Prototype/include/timestamp.h`.

The header shared by the sender and the receiver of the timestamp program
declares three things:

* the object-like macro `ENV_TIMESTAMP_OUTPUT` (line 41),
* the scoped enumeration `TimeStampMode` with underlying type `int`
  (lines 43-46),
* the prototype of `timestamp_manipulate` (line 48), whose body lives in a
  translation unit that is not part of the header.

The embedding below covers the macro and the enumeration.  Because the
enumeration has a fixed underlying type, its values are all the values of
`int`, of which two carry a name; the embedding keeps every one of them.
-/

namespace Timestamp

/-- The macro `ENV_TIMESTAMP_OUTPUT` of `timestamp.h`, line 41: the string
literal it expands to. -/
def ENV_TIMESTAMP_OUTPUT : String := "TIMESTAMP_OUTPUT"

/-- Smallest value of the C++ type `int` (32 bits, two's complement). -/
def INT_MIN : Int := -2147483648

/-- Largest value of the C++ type `int` (32 bits, two's complement). -/
def INT_MAX : Int := 2147483647

/-- The C++ type `int`: the integers between `INT_MIN` and `INT_MAX`. -/
abbrev CInt : Type := { v : Int // INT_MIN ≤ v ∧ v ≤ INT_MAX }

/-- The scoped enumeration `enum class TimeStampMode : int` of `timestamp.h`,
lines 43-46.  The underlying type is fixed to `int`, so a value of the
enumeration is any value of `int`; the enumerators are names for two of
them. -/
structure TimeStampMode where
  underlying : CInt
  deriving DecidableEq

namespace TimeStampMode

/-- The enumerator `RECEIVE` (line 44).  It is the first enumerator and has
no initialiser, so its value is zero. -/
def RECEIVE : TimeStampMode := ⟨⟨0, by decide⟩⟩

/-- The enumerator `SEND` (line 45).  It has no initialiser, so its value is
the value of its predecessor `RECEIVE` plus one. -/
def SEND : TimeStampMode := ⟨⟨(RECEIVE.underlying : Int) + 1, by decide⟩⟩

/-- The enumerator list of `TimeStampMode` exactly as written between the
braces of the declaration: `RECEIVE` first, `SEND` second. -/
def enumerators : List TimeStampMode := [RECEIVE, SEND]

/-- The conversion `static_cast<int>(mode)`: the value of the enumeration in
its underlying type. -/
def toInt (mode : TimeStampMode) : CInt :=
  mode.underlying

/-- The conversion `static_cast<TimeStampMode>(i)` of an `int`.  With a fixed
underlying type it is defined for every `int` and keeps the value. -/
def ofInt (i : CInt) : TimeStampMode :=
  ⟨i⟩

end TimeStampMode

/-- Characters allowed in the environment-variable key: an upper-case ASCII
letter or the underscore. -/
def isKeyChar (c : Char) : Bool :=
  c.isUpper || c == '_'

end Timestamp

namespace Timestamp

open TimeStampMode

/-- A value of the enumeration is the enumerator `RECEIVE` exactly when its
underlying value is zero. -/
theorem eq_RECEIVE_iff (mode : TimeStampMode) :
    mode = RECEIVE ↔ (mode.toInt : Int) = 0 := by
  obtain ⟨⟨v, hv⟩⟩ := mode
  constructor
  · intro h
    have := congrArg (fun m : TimeStampMode => (m.toInt : Int)) h
    simpa [toInt, RECEIVE] using this
  · intro h
    simp only [toInt] at h
    subst h
    rfl

/-- A value of the enumeration is the enumerator `SEND` exactly when its
underlying value is one. -/
theorem eq_SEND_iff (mode : TimeStampMode) :
    mode = SEND ↔ (mode.toInt : Int) = 1 := by
  obtain ⟨⟨v, hv⟩⟩ := mode
  constructor
  · intro h
    have := congrArg (fun m : TimeStampMode => (m.toInt : Int)) h
    simpa [toInt, SEND, RECEIVE] using this
  · intro h
    simp only [toInt] at h
    subst h
    rfl

/-- A value of the enumeration is a named enumerator exactly when its
underlying value is zero or one. -/
theorem named_iff (mode : TimeStampMode) :
    (mode = RECEIVE ∨ mode = SEND) ↔
      ((mode.toInt : Int) = 0 ∨ (mode.toInt : Int) = 1) := by
  rw [eq_RECEIVE_iff, eq_SEND_iff]

/-- C1, refuted as stated: the value `static_cast<TimeStampMode>(2)` is a
value of `TimeStampMode` that is neither `RECEIVE` nor `SEND`, so it is not
the case that every value of the enumeration is one of the two enumerators. -/
theorem C1_value_two_is_unnamed :
    ofInt ⟨2, by decide⟩ ≠ RECEIVE ∧
    ofInt ⟨2, by decide⟩ ≠ SEND ∧
    ¬ (∀ mode : TimeStampMode, mode = RECEIVE ∨ mode = SEND) := by
  refine ⟨by decide, by decide, ?_⟩
  intro h
  rcases h (ofInt ⟨2, by decide⟩) with h2 | h2
  · exact absurd h2 (by decide)
  · exact absurd h2 (by decide)

/-- C1, amended: `TimeStampMode` declares exactly two enumerators, `RECEIVE`
and `SEND`, which are different and have the underlying values 0 and 1.  A
value of the enumeration is one of the two enumerators exactly when its
underlying value is 0 or 1; the enumeration carries nothing besides its
underlying `int`, so two values with the same underlying value are equal. -/
theorem C1_TimeStampMode_two_enumerators :
    enumerators = [RECEIVE, SEND] ∧
    enumerators.length = 2 ∧
    enumerators.Nodup ∧
    RECEIVE ≠ SEND ∧
    (RECEIVE.toInt : Int) = 0 ∧
    (SEND.toInt : Int) = 1 ∧
    (∀ mode : TimeStampMode, (mode = RECEIVE ∨ mode = SEND) ↔
      ((mode.toInt : Int) = 0 ∨ (mode.toInt : Int) = 1)) ∧
    (∀ mode : TimeStampMode, mode ∈ enumerators ↔
      ((mode.toInt : Int) = 0 ∨ (mode.toInt : Int) = 1)) ∧
    (∀ a b : TimeStampMode, a = b ↔ (a.toInt : Int) = (b.toInt : Int)) := by
  refine ⟨rfl, by decide, by decide, by decide, by decide, by decide,
    named_iff, ?_, ?_⟩
  · intro mode
    rw [← named_iff]
    simp [enumerators]
  · intro a b
    obtain ⟨⟨x, hx⟩⟩ := a
    obtain ⟨⟨y, hy⟩⟩ := b
    constructor
    · intro h
      rw [h]
    · intro h
      simp only [toInt] at h
      subst h
      rfl

/-- C3: the environment-variable key `ENV_TIMESTAMP_OUTPUT` is exactly the
string `TIMESTAMP_OUTPUT`.  It has 16 characters, each an upper-case letter or
an underscore, exactly one of them an underscore, none of them whitespace (so
nothing surrounds the name), and whatever is looked up under the constant is
what is looked up under the name `TIMESTAMP_OUTPUT`. -/
theorem C3_ENV_TIMESTAMP_OUTPUT_value :
    ENV_TIMESTAMP_OUTPUT = "TIMESTAMP_OUTPUT" ∧
    ENV_TIMESTAMP_OUTPUT.length = 16 ∧
    ENV_TIMESTAMP_OUTPUT.data.all isKeyChar = true ∧
    ENV_TIMESTAMP_OUTPUT.data.count '_' = 1 ∧
    (ENV_TIMESTAMP_OUTPUT.data.filter Char.isUpper).length = 15 ∧
    ENV_TIMESTAMP_OUTPUT.data.any Char.isWhitespace = false ∧
    (∀ (α : Type) (getenv : String → α),
      getenv ENV_TIMESTAMP_OUTPUT = getenv "TIMESTAMP_OUTPUT") := by
  refine ⟨rfl, by decide, by decide, by decide, by decide, by decide, ?_⟩
  intro α getenv
  rfl

/-- C4, refuted as stated: the `int` 2 is neither 0 nor 1, yet it converts
back to a value of `TimeStampMode`, and that value converts to the `int` 2
again.  The `int` -1 behaves the same way. -/
theorem C4_int_two_converts_back :
    (toInt (ofInt ⟨2, by decide⟩) : Int) = 2 ∧
    (toInt (ofInt ⟨-1, by decide⟩) : Int) = -1 ∧
    ¬ (∀ i : CInt, (∃ mode : TimeStampMode, ofInt i = mode ∧ toInt mode = i) →
        ((i : Int) = 0 ∨ (i : Int) = 1)) := by
  refine ⟨by decide, by decide, ?_⟩
  intro h
  rcases h ⟨2, by decide⟩ ⟨ofInt ⟨2, by decide⟩, rfl, rfl⟩ with h2 | h2
  · exact absurd h2 (by decide)
  · exact absurd h2 (by decide)

/-- C4, amended: the conversion of `TimeStampMode` to its underlying `int`
sends `RECEIVE` to 0 and `SEND` to 1 and is injective.  Every `int` converts
back to a value of the enumeration, and the two conversions undo each other
in both directions.  An `int` converts back to one of the two enumerators
exactly when it is 0 or 1. -/
theorem C4_TimeStampMode_int_conversion :
    (toInt RECEIVE : Int) = 0 ∧
    (toInt SEND : Int) = 1 ∧
    Function.Injective toInt ∧
    Function.Surjective toInt ∧
    (∀ mode : TimeStampMode, ofInt (toInt mode) = mode) ∧
    (∀ i : CInt, toInt (ofInt i) = i) ∧
    (∀ i : CInt, (ofInt i = RECEIVE ∨ ofInt i = SEND) ↔
      ((i : Int) = 0 ∨ (i : Int) = 1)) ∧
    ofInt ⟨0, by decide⟩ = RECEIVE ∧
    ofInt ⟨1, by decide⟩ = SEND := by
  refine ⟨by decide, by decide, ?_, ?_, ?_, ?_, ?_, by decide, by decide⟩
  · intro a b hab
    obtain ⟨x⟩ := a
    obtain ⟨y⟩ := b
    simp only [toInt] at hab
    rw [hab]
  · intro i
    exact ⟨ofInt i, rfl⟩
  · intro mode
    rfl
  · intro i
    rfl
  · intro i
    exact named_iff (ofInt i)

end Timestamp
